import Mathlib

/-!
Verification of the NYC "where does my money go" page (src/app/page.tsx).

The page's numeric code (JavaScript `number`) is embedded with exact
rational arithmetic (`ℚ`); the trigonometric projections used by the
donut layout (`Math.cos` / `Math.sin`) are embedded with `Real.cos` /
`Real.sin`.  Each definition mirrors one function or derived value of
the source file; presentation-only fields (colors, source citations,
CSS) are omitted.
-/

/-- Mirrors `type FilingStatus` (src/app/page.tsx line 5). -/
inductive FilingStatus
  | single
  | married_joint
  | married_separate
  | head_household
deriving DecidableEq, Repr

/-- Mirrors `DEFAULTS.filingStatus` (line 46). -/
def DEFAULTS_filingStatus : FilingStatus := .single

/-- Mirrors `DEFAULTS.nyStandardDeduction` (line 47). -/
def DEFAULTS_nyStandardDeduction : ℚ := 8000

/-- Mirrors `clamp0` (lines 57-59): `Math.max(0, n)`. -/
def clamp0 (n : ℚ) : ℚ := max 0 n

/-- Mirrors `computeNYCResidentTaxRateSchedule` (lines 61-79).  The code
inspects `filingStatus` only in an empty `if` body (a comment), so every
filing status is taxed on the single schedule. -/
def computeNYCResidentTaxRateSchedule (nycTaxableIncome : ℚ)
    (filingStatus : FilingStatus) : ℚ :=
  let x := nycTaxableIncome
  if x ≤ 12000 then 0.03078 * x
  else if x ≤ 25000 then 369 + 0.03762 * (x - 12000)
  else if x ≤ 50000 then 858 + 0.03819 * (x - 25000)
  else 1813 + 0.03876 * (x - 50000)

/-- The record argument of `computeNYCIncomeTax` (line 81). -/
structure TaxParams where
  income : ℚ
  filingStatus : FilingStatus
  nyStandardDeduction : ℚ
deriving DecidableEq

/-- The record returned by `computeNYCIncomeTax` (line 84). -/
structure TaxResult where
  nycTaxableIncome : ℚ
  nycTax : ℚ
deriving DecidableEq

/-- Mirrors `computeNYCIncomeTax` (lines 81-85). -/
def computeNYCIncomeTax (params : TaxParams) : TaxResult :=
  let nycTaxableIncome := clamp0 (params.income - params.nyStandardDeduction)
  let nycTax := computeNYCResidentTaxRateSchedule nycTaxableIncome params.filingStatus
  { nycTaxableIncome := nycTaxableIncome, nycTax := nycTax }

/-- Mirrors `normalizeWeights` (lines 274-277).  The TypeScript generic
`T extends \x7b weight: number \x7d` is embedded by abstracting the
weight accessor; the returned pair carries the sibling-group sum and
each item together with its `norm` field. -/
def normalizeWeights {α : Type} (weight : α → ℚ) (items : List α) :
    ℚ × List (α × ℚ) :=
  let sum := items.foldl (fun a b => a + weight b) 0
  (sum, items.map (fun it => (it, if sum ≠ 0 then weight it / sum else 0)))

/-- A child entry of a `Category` (line 15); sources omitted. -/
structure Subcategory where
  label : String
  weight : ℚ
deriving DecidableEq

/-- Mirrors `type Category` (lines 9-16); accent and sources omitted. -/
structure Category where
  id : String
  label : String
  weight : ℚ
  children : List Subcategory
deriving DecidableEq

/-- The `CATEGORIES` entry with id "education" (lines 88-105). -/
def education : Category :=
  { id := "education", label := "Education", weight := 29.71, children :=
    [ { label := "K-12 schools & instruction", weight := 16.6 },
      { label := "School operations", weight := 5.4 },
      { label := "Early childhood birth-to-five services", weight := 2.2 },
      { label := "Superintendents & field offices", weight := 0.347 },
      { label := "Central administrative offices", weight := 0.176 },
      { label := "Employee benefits & pension", weight := 8.5 },
      { label := "Debt payments", weight := 3.8 },
      { label := "State-mandated payments to charter schools", weight := 3.4 },
      { label := "Non-public & contract schools (special education)", weight := 2.3 } ] }

/-- The `CATEGORIES` entry with id "human_services" (lines 106-118). -/
def humanServices : Category :=
  { id := "human_services", label := "Human Services", weight := 16.37, children :=
    [ { label := "Department of Social Services", weight := 10.17 },
      { label := "Department of Homeless Services", weight := 3.02 },
      { label := "Administration for Children\x27s Services", weight := 2.67 },
      { label := "Department for the Aging", weight := 0.51 } ] }

/-- The `CATEGORIES` entry with id "miscellaneous" (lines 119-128). -/
def miscellaneous : Category :=
  { id := "miscellaneous", label := "Miscellaneous", weight := 13.18, children :=
    [ { label := "Personal service", weight := 10060.656 },
      { label := "Other than personal service", weight := 4268.15 } ] }

/-- The `CATEGORIES` entry with id "public_safety" (lines 129-148). -/
def publicSafety : Category :=
  { id := "public_safety", label := "Public Safety & Judicial", weight := 10.11, children :=
    [ { label := "Police Department (NYPD)", weight := 5.33 },
      { label := "Fire Department (FDNY)", weight := 2.23 },
      { label := "Department of Correction", weight := 1.03 },
      { label := "Office of Criminal Justice", weight := 0.74 },
      { label := "District Attorneys", weight := 0.51 },
      { label := "Department of Probation", weight := 0.1 },
      { label := "Emergency Management", weight := 0.07 },
      { label := "Taxi & Limousine Commission", weight := 0.05 },
      { label := "Special Narcotics Prosecutor", weight := 0.03 },
      { label := "Civilian Complaint Review Board", weight := 0.02 } ] }

/-- The `CATEGORIES` entry with id "pensions" (lines 149-159). -/
def pensions : Category :=
  { id := "pensions", label := "City Employee Pensions", weight := 8.9, children :=
    [ { label := "Salary and wages", weight := 10233.669 },
      { label := "Other fringe benefits", weight := 40.257 },
      { label := "Other than personal service", weight := 2.157 } ] }

/-- The `CATEGORIES` entry with id "general_government" (lines 160-187). -/
def generalGovernment : Category :=
  { id := "general_government", label := "General Government", weight := 5.48, children :=
    [ { label := "Department of Citywide Administrative Services", weight := 1.51 },
      { label := "Department of Youth and Community Development", weight := 1.29 },
      { label := "Department of Information Technology & Telecommunications", weight := 0.69 },
      { label := "Department of Finance", weight := 0.32 },
      { label := "Department of Small Business Services", weight := 0.24 },
      { label := "Law Department", weight := 0.24 },
      { label := "Mayoralty", weight := 0.17 },
      { label := "Department of Design and Construction", weight := 0.14 },
      { label := "Board of Elections", weight := 0.12 },
      { label := "Office of the Comptroller", weight := 0.11 },
      { label := "Financial Information Services Agency", weight := 0.1 },
      { label := "City Council", weight := 0.1 },
      { label := "Campaign Finance Board", weight := 0.09 },
      { label := "Office of Administrative Trials and Hearings", weight := 0.07 },
      { label := "Department of Consumer Affairs", weight := 0.06 },
      { label := "Department of City Planning", weight := 0.05 },
      { label := "Department of Investigation", weight := 0.05 },
      { label := "Other administrative agencies", weight := 0.1 },
      { label := "Borough Presidents", weight := 0.03 },
      { label := "Community Boards", weight := 0.02 } ] }

/-- The `CATEGORIES` entry with id "debt_service" (lines 188-199). -/
def debtService : Category :=
  { id := "debt_service", label := "Debt Service", weight := 4.14, children :=
    [ { label := "City funds", weight := 4766.171 },
      { label := "Federal - other", weight := 102.386 },
      { label := "State", weight := 4.657 },
      { label := "Other categorical", weight := 1.241 } ] }

/-- The `CATEGORIES` entry with id "health" (lines 200-209). -/
def health : Category :=
  { id := "health", label := "Health", weight := 3.49, children :=
    [ { label := "Dept. of Health & Mental Hygiene", weight := 2.07 },
      { label := "NYC Health + Hospitals", weight := 1.42 } ] }

/-- The `CATEGORIES` entry with id "environmental" (lines 210-219). -/
def environmental : Category :=
  { id := "environmental", label := "Environmental Protection", weight := 3.18, children :=
    [ { label := "Department of Environmental Protection", weight := 2.95 },
      { label := "Department of Sanitation", weight := 0.23 } ] }

/-- The `CATEGORIES` entry with id "housing" (lines 220-229). -/
def housing : Category :=
  { id := "housing", label := "Housing", weight := 1.56, children :=
    [ { label := "New York City Housing Authority", weight := 0.92 },
      { label := "Department of Housing Preservation and Development", weight := 0.64 } ] }

/-- The `CATEGORIES` entry with id "cuny" (lines 230-239). -/
def cuny : Category :=
  { id := "cuny", label := "CUNY Community Colleges", weight := 1.32, children :=
    [ { label := "CUNY Community Colleges", weight := 1.22 },
      { label := "CUNY Construction Fund", weight := 0.1 } ] }

/-- The `CATEGORIES` entry with id "transportation" (lines 240-249). -/
def transportationServices : Category :=
  { id := "transportation", label := "Transportation Services", weight := 1.28, children :=
    [ { label := "Department of Transportation", weight := 0.93 },
      { label := "Department of Records and Information Services", weight := 0.35 } ] }

/-- The `CATEGORIES` entry with id "parks_cultural" (lines 250-259). -/
def parksCultural : Category :=
  { id := "parks_cultural", label := "Parks, Recreation & Cultural Affairs", weight := 0.84, children :=
    [ { label := "Department of Parks and Recreation", weight := 0.48 },
      { label := "Department of Cultural Affairs", weight := 0.36 } ] }

/-- The `CATEGORIES` entry with id "libraries" (lines 260-271). -/
def libraries : Category :=
  { id := "libraries", label := "Libraries", weight := 0.44, children :=
    [ { label := "New York Public Library", weight := 190.598 },
      { label := "Queens Public Library", weight := 149.9 },
      { label := "Brooklyn Public Library", weight := 144.775 },
      { label := "NYPL - Research Libraries", weight := 37.867 } ] }

/-- Mirrors the `CATEGORIES` constant (lines 87-272). -/
def CATEGORIES : List Category :=
  [education, humanServices, miscellaneous, publicSafety, pensions,
   generalGovernment, debtService, health, environmental, housing,
   cuny, transportationServices, parksCultural, libraries]

/-- A top-level allocation entry: the spread `\x7b ...c, norm, dollars \x7d`
produced by `categoryAlloc` (lines 633-639). -/
structure CatAlloc where
  cat : Category
  norm : ℚ
  dollars : ℚ
deriving DecidableEq

/-- A subcategory allocation entry produced by `selectedSubcats`
(lines 646-653). -/
structure SubAlloc where
  sub : Subcategory
  norm : ℚ
  dollars : ℚ
deriving DecidableEq

/-- Mirrors the `categoryAlloc` memo (lines 633-639): normalize the
top-level weights and multiply the tax amount by each normalized
fraction. -/
def categoryAlloc (nycTax : ℚ) : List CatAlloc :=
  ((normalizeWeights Category.weight CATEGORIES).2).map
    (fun p => { cat := p.1, norm := p.2, dollars := nycTax * p.2 })

/-- Mirrors the `selectedSubcats` memo (lines 646-653) for a given
selected category allocation: `null` when the category has no children,
otherwise the normalized children scaled by the category's dollars. -/
def selectedSubcatsOf (ca : CatAlloc) : Option (List SubAlloc) :=
  if ca.cat.children.isEmpty then none
  else some (((normalizeWeights Subcategory.weight ca.cat.children).2).map
    (fun p => { sub := p.1, norm := p.2, dollars := ca.dollars * p.2 }))

/-- Mirrors `type RingItem` (lines 279-284); the `onClick` presentation
callback is omitted. -/
structure RingItem where
  label : String
  value : ℚ
  color : Option String
deriving DecidableEq

/-- Mirrors `RING_PADDING` (line 292). -/
def RING_PADDING : ℚ := 10

/-- Mirrors `type DonutSlice` (lines 294-302).  Besides the code's
record fields, the embedding also records the per-item local variables
`start`, `angle` (as `sweep`) and `midAngle` computed inside the
`items.map` body of `computeDonutSlices`, so that properties about the
slice spans can be stated.  `midX`, `midY`, `isRight` use real-valued
trigonometry as the code uses `Math.cos` / `Math.sin`. -/
structure DonutSlice where
  label : String
  value : ℚ
  pct : ℚ
  color : Option String
  start : ℚ
  sweep : ℚ
  midAngle : ℚ
  midX : ℝ
  midY : ℝ
  isRight : Bool

/-- The walk over the item list inside `computeDonutSlices`
(lines 312-328): the JavaScript closure mutates `acc`; the embedding
threads `acc` as an explicit accumulator. -/
noncomputable def computeDonutSlicesAux (total cx cy ringMid startAngle : ℚ) :
    ℚ → List RingItem → List DonutSlice
  | _, [] => []
  | acc, it :: rest =>
    let value := max 0 it.value
    let angle := value / total * 360
    let start := startAngle + acc
    let midAngle := start + angle / 2
    let radians : ℝ := Real.pi / 180 * (midAngle : ℝ)
    { label := it.label
      value := it.value
      pct := value / total * 100
      color := it.color
      start := start
      sweep := angle
      midAngle := midAngle
      midX := (cx : ℝ) + (ringMid : ℝ) * Real.cos radians
      midY := (cy : ℝ) + (ringMid : ℝ) * Real.sin radians
      isRight := decide (0 ≤ Real.cos radians) } ::
      computeDonutSlicesAux total cx cy ringMid startAngle (acc + angle) rest

/-- Mirrors `computeDonutSlices` (lines 304-329).  The call sites in
`RingWithLabelRails` use the default start angle −90, passed explicitly
below. -/
noncomputable def computeDonutSlices (items : List RingItem)
    (size thickness startAngle : ℚ) : List DonutSlice :=
  let total := max 1 (items.foldl (fun a b => a + max 0 b.value) 0)
  let cx := size / 2
  let cy := size / 2
  let ringOuter := size / 2 - RING_PADDING
  let ringMid := ringOuter - thickness / 2
  computeDonutSlicesAux total cx cy ringMid startAngle 0 items

/-- Mirrors the `leftItems` memo of `RingWithLabelRails` (lines 477-480):
slices not classified right, sorted ascending by `midY`.  The JavaScript
`Array.sort` with comparator `a.midY - b.midY` is stable (ES2019), as is
`mergeSort`. -/
noncomputable def leftItems (items : List RingItem) (size thickness : ℚ) :
    List DonutSlice :=
  ((computeDonutSlices items size thickness (-90)).filter
    (fun s => !s.isRight)).mergeSort (fun a b => decide (a.midY ≤ b.midY))

/-- Mirrors the `rightItems` memo of `RingWithLabelRails`
(lines 481-484). -/
noncomputable def rightItems (items : List RingItem) (size thickness : ℚ) :
    List DonutSlice :=
  ((computeDonutSlices items size thickness (-90)).filter
    (fun s => s.isRight)).mergeSort (fun a b => decide (a.midY ≤ b.midY))

/-- A measured bounding box (`getBoundingClientRect` result): position
plus extent; `right` is derived as `left + width`. -/
structure Rect where
  left : ℝ
  top : ℝ
  width : ℝ
  height : ℝ

/-- The `right` edge of a measured box. -/
def Rect.right (r : Rect) : ℝ := r.left + r.width

/-- One element of the `lines` state of `RingWithLabelRails`
(lines 469-471, produced at line 513). -/
structure ConnectorLine where
  label : String
  x1 : ℝ
  y1 : ℝ
  x2 : ℝ
  y2 : ℝ
  isLeft : Prop
  color : Option String

/-- The body mapped over `slices` inside `measureLines`
(lines 504-514): `null` when the label has no measured box, otherwise
the connector endpoints in container coordinates.  The measured label
boxes are supplied as a partial map from label to box, standing for
`labelRefs.current`. -/
noncomputable def connectorOf (containerRect donutRect : Rect)
    (measure : String → Option Rect) (slice : DonutSlice) :
    Option ConnectorLine :=
  match measure slice.label with
  | none => none
  | some labelRect =>
    let isLeft := labelRect.left < containerRect.left + containerRect.width / 2
    some
      { label := slice.label
        x1 := if isLeft then labelRect.right - containerRect.left
              else labelRect.left - containerRect.left
        y1 := labelRect.top - containerRect.top + labelRect.height / 2
        x2 := donutRect.left - containerRect.left + slice.midX
        y2 := donutRect.top - containerRect.top + slice.midY
        isLeft := isLeft
        color := slice.color }

/-- Mirrors the `next` computation of `measureLines` (lines 503-524):
map each slice to its connector or `null`, then drop the nulls
(the `.filter(line => line !== null)` with its cast). -/
noncomputable def measureLines (slices : List DonutSlice)
    (measure : String → Option Rect) (containerRect donutRect : Rect) :
    List ConnectorLine :=
  (slices.map (connectorOf containerRect donutRect measure)).reduceOption

/-- The component state of `Page` (lines 619-622).  The
presentation-only `showMethodology` flag is omitted. -/
structure PageState where
  income : ℚ
  unlockedLevel : ℕ
  selectedCategoryId : Option String
  selectedSubcategoryLabel : Option String
deriving DecidableEq

/-- Mirrors `unlockTo` (line 664): raise `unlockedLevel` to at least
`lvl`. -/
def unlockTo (s : PageState) (lvl : ℕ) : PageState :=
  { s with unlockedLevel := max s.unlockedLevel lvl }

/-- The user actions of the page: editing income (line 761), clicking
the income card (line 754), the four breadcrumb buttons
(lines 702-748), clicking a category slice or label (lines 797-804),
and clicking a subcategory slice or label (line 825). -/
inductive PageAction
  | editIncome (v : ℚ)
  | clickIncomeCard
  | crumbIncome
  | crumbTax
  | crumbAllocation
  | crumbDrill
  | clickCategory (label : String)
  | clickSubcategory (label : String)
deriving DecidableEq

/-- The state transition of `Page` for each user action, mirroring the
click handlers.  The breadcrumb buttons guard on `unlockedLevel` (the
`disabled` CSS also blocks pointer events below the threshold) and then
SET the level to their own index, clearing both selections; the category
click looks up the clicked label in `categoryAlloc` and, on a match,
selects it, clears the subcategory and unlocks level 3.  The
`useEffect` at lines 660-662 re-clears the subcategory label when the
selected category id changes; the category handler already does so. -/
def step (s : PageState) : PageAction → PageState
  | .editIncome v => { s with income := v }
  | .clickIncomeCard => unlockTo s 2
  | .crumbIncome =>
    { s with unlockedLevel := 0, selectedCategoryId := none,
             selectedSubcategoryLabel := none }
  | .crumbTax =>
    if 1 ≤ s.unlockedLevel then
      { s with unlockedLevel := 1, selectedCategoryId := none,
               selectedSubcategoryLabel := none }
    else s
  | .crumbAllocation =>
    if 2 ≤ s.unlockedLevel then
      { s with unlockedLevel := 2, selectedCategoryId := none,
               selectedSubcategoryLabel := none }
    else s
  | .crumbDrill =>
    if 3 ≤ s.unlockedLevel then { s with unlockedLevel := 3 } else s
  | .clickCategory label =>
    match (categoryAlloc (computeNYCIncomeTax
        ⟨s.income, DEFAULTS_filingStatus, DEFAULTS_nyStandardDeduction⟩).nycTax).find?
        (fun x => x.cat.label == label) with
    | some m =>
      { (unlockTo s 3) with selectedCategoryId := some m.cat.id,
                            selectedSubcategoryLabel := none }
    | none => s
  | .clickSubcategory label => { s with selectedSubcategoryLabel := some label }

/-- Mirrors the `selectedCategory` memo (lines 641-644):
`categoryAlloc.find((c) => c.id === selectedCategoryId) ?? null`.
When `selectedCategoryId` is `null`, the strict equality matches no
entry, so the memo is `null`. -/
def selectedCategoryOf (allocs : List CatAlloc)
    (selectedCategoryId : Option String) : Option CatAlloc :=
  match selectedCategoryId with
  | none => none
  | some cid => allocs.find? (fun c => c.cat.id == cid)

/-- Mirrors the `selectedSubcategory` memo (lines 655-658): `null` when
no label is selected or the subcategory list is `null` or empty,
otherwise `find` by label with `?? null`. -/
def selectedSubcategoryOf (selectedSubcats : Option (List SubAlloc))
    (selectedSubcategoryLabel : Option String) : Option SubAlloc :=
  match selectedSubcategoryLabel, selectedSubcats with
  | none, _ => none
  | some _, none => none
  | some lbl, some subs =>
    if subs.isEmpty then none
    else subs.find? (fun sc => sc.sub.label == lbl)

/-- The bracket schedule never decreases by more than 0.36: the bases
369, 858, 1813 are the published rounded values, so the junctions at
12000 and 25000 jump down by exactly 0.36 and 0.06. -/
theorem schedule_approx_mono (fs : FilingStatus) {x y : ℚ} (hxy : x ≤ y) :
    computeNYCResidentTaxRateSchedule x fs
      ≤ computeNYCResidentTaxRateSchedule y fs + 0.36 := by
  simp only [computeNYCResidentTaxRateSchedule]
  split_ifs <;> linarith

/-- The bracket schedule is non-negative on non-negative taxable income. -/
theorem schedule_nonneg (fs : FilingStatus) {x : ℚ} (hx : 0 ≤ x) :
    0 ≤ computeNYCResidentTaxRateSchedule x fs := by
  simp only [computeNYCResidentTaxRateSchedule]
  split_ifs <;> linarith

/-- C1 counterexample: the composed tax function is NOT monotonically
non-decreasing (hence also not continuous as claimed).  At incomes
20000 and 20001 (taxable 12000 and 12001) the tax drops from 369.36 to
369.03762, because the second bracket's published base 369 does not
equal the first bracket evaluated at its upper threshold (369.36). -/
theorem tax_not_monotone_at_bracket_join :
    (20000 : ℚ) < 20001 ∧
    (computeNYCIncomeTax ⟨20001, .single, 8000⟩).nycTax
      < (computeNYCIncomeTax ⟨20000, .single, 8000⟩).nycTax := by
  constructor
  · norm_num
  · norm_num [computeNYCIncomeTax, computeNYCResidentTaxRateSchedule, clamp0]

/-- C1 (amended): the tax composed from the standard-deduction clamp and
the bracket schedule is exactly piecewise linear with four segments whose
breakpoints on taxable income are 12000, 25000, 50000 (pairwise distinct
marginal rates, so the segments never merge), and it is monotonically
non-decreasing only up to the tolerance 0.36 — the largest downward jump
at a bracket junction.  Exact continuity and exact monotonicity fail (see
the counterexample). -/
theorem tax_four_segments_and_approx_monotone :
    (∀ i : ℚ, (computeNYCIncomeTax ⟨i, .single, 8000⟩).nycTax
        = computeNYCResidentTaxRateSchedule (max 0 (i - 8000)) .single) ∧
    (∀ x : ℚ, x ≤ 12000 →
      computeNYCResidentTaxRateSchedule x .single = 0.03078 * x) ∧
    (∀ x : ℚ, 12000 < x → x ≤ 25000 →
      computeNYCResidentTaxRateSchedule x .single = 369 + 0.03762 * (x - 12000)) ∧
    (∀ x : ℚ, 25000 < x → x ≤ 50000 →
      computeNYCResidentTaxRateSchedule x .single = 858 + 0.03819 * (x - 25000)) ∧
    (∀ x : ℚ, 50000 < x →
      computeNYCResidentTaxRateSchedule x .single = 1813 + 0.03876 * (x - 50000)) ∧
    ((0.03078 : ℚ) ≠ 0.03762 ∧ (0.03762 : ℚ) ≠ 0.03819 ∧ (0.03819 : ℚ) ≠ 0.03876) ∧
    (∀ i j : ℚ, i ≤ j →
      (computeNYCIncomeTax ⟨i, .single, 8000⟩).nycTax
        ≤ (computeNYCIncomeTax ⟨j, .single, 8000⟩).nycTax + 0.36) := by
  refine ⟨fun i => rfl, ?_, ?_, ?_, ?_, ?_, ?_⟩
  · intro x hx
    simp only [computeNYCResidentTaxRateSchedule]
    split_ifs <;> linarith
  · intro x hx1 hx2
    simp only [computeNYCResidentTaxRateSchedule]
    split_ifs <;> linarith
  · intro x hx1 hx2
    simp only [computeNYCResidentTaxRateSchedule]
    split_ifs <;> linarith
  · intro x hx
    simp only [computeNYCResidentTaxRateSchedule]
    split_ifs <;> linarith
  · norm_num
  · intro i j hij
    have h : max 0 (i - 8000) ≤ max 0 (j - 8000) :=
      max_le_max le_rfl (by linarith)
    simpa [computeNYCIncomeTax, clamp0] using
      schedule_approx_mono FilingStatus.single h

/-- Witness for the amended C1 theorem at concrete inputs. -/
theorem tax_four_segments_and_approx_monotone_witness :
    computeNYCResidentTaxRateSchedule 30000 .single = 858 + 0.03819 * (30000 - 25000) ∧
    (computeNYCIncomeTax ⟨20000, .single, 8000⟩).nycTax
      ≤ (computeNYCIncomeTax ⟨20001, .single, 8000⟩).nycTax + 0.36 :=
  ⟨tax_four_segments_and_approx_monotone.2.2.2.1 30000 (by norm_num) (by norm_num),
   tax_four_segments_and_approx_monotone.2.2.2.2.2.2 20000 20001 (by norm_num)⟩

/-- C5: `computeNYCIncomeTax` evaluates the schedule at
`max 0 (income − standardDeduction)`, and with the default standard
deduction 8000 it returns tax 0 whenever `income ≤ 8000`.  It is a total
function on ℚ (all real inputs, including negative income, are clamped,
never rejected). -/
theorem tax_clamps_and_zero_below_deduction :
    (∀ income : ℚ,
      (computeNYCIncomeTax
          ⟨income, DEFAULTS_filingStatus, DEFAULTS_nyStandardDeduction⟩).nycTaxableIncome
        = max 0 (income - 8000)) ∧
    (∀ income : ℚ,
      (computeNYCIncomeTax
          ⟨income, DEFAULTS_filingStatus, DEFAULTS_nyStandardDeduction⟩).nycTax
        = computeNYCResidentTaxRateSchedule (max 0 (income - 8000)) .single) ∧
    (∀ income : ℚ, income ≤ DEFAULTS_nyStandardDeduction →
      (computeNYCIncomeTax
          ⟨income, DEFAULTS_filingStatus, DEFAULTS_nyStandardDeduction⟩).nycTax = 0) := by
  refine ⟨fun income => rfl, fun income => rfl, ?_⟩
  intro income h
  have hmax : max 0 (income - 8000) = 0 := by
    simp only [DEFAULTS_nyStandardDeduction] at h
    simp [max_eq_left, sub_nonpos.mpr h]
  simp [computeNYCIncomeTax, clamp0, DEFAULTS_nyStandardDeduction,
    DEFAULTS_filingStatus, hmax, computeNYCResidentTaxRateSchedule]

/-- Witness for C5 at a negative income. -/
theorem tax_clamps_and_zero_below_deduction_witness :
    (computeNYCIncomeTax
        ⟨-3, DEFAULTS_filingStatus, DEFAULTS_nyStandardDeduction⟩).nycTax = 0 :=
  tax_clamps_and_zero_below_deduction.2.2 (-3) (by norm_num [DEFAULTS_nyStandardDeduction])

/-- C10: for every input the reported taxable income is ≥ 0 and the
returned tax is ≥ 0; the schedule maps every non-negative taxable income
to a non-negative tax. -/
theorem tax_nonneg :
    (∀ p : TaxParams, 0 ≤ (computeNYCIncomeTax p).nycTaxableIncome
        ∧ 0 ≤ (computeNYCIncomeTax p).nycTax) ∧
    (∀ (x : ℚ) (fs : FilingStatus), 0 ≤ x →
      0 ≤ computeNYCResidentTaxRateSchedule x fs) := by
  refine ⟨fun p => ⟨le_max_left 0 _, ?_⟩, fun x fs hx => schedule_nonneg fs hx⟩
  exact schedule_nonneg p.filingStatus (le_max_left 0 _)

/-- Witness for C10 at concrete inputs. -/
theorem tax_nonneg_witness :
    (0 ≤ (computeNYCIncomeTax ⟨5, .single, 8000⟩).nycTax) ∧
    0 ≤ computeNYCResidentTaxRateSchedule 7 .single :=
  ⟨(tax_nonneg.1 ⟨5, .single, 8000⟩).2, tax_nonneg.2 7 .single (by norm_num)⟩

/-- `List.foldl` with a running addition equals the sum of the mapped
list (the shape used by `normalizeWeights`). -/
theorem foldl_add_eq_sum {α : Type} (f : α → ℚ) (c : ℚ) (l : List α) :
    l.foldl (fun a b => a + f b) c = c + (l.map f).sum := by
  induction l generalizing c with
  | nil => simp
  | cons x xs ih => simp [ih, add_assoc]

/-- Summing `f a / c` over a list divides the summed list by `c`. -/
theorem sum_map_div {α : Type} (f : α → ℚ) (c : ℚ) (l : List α) :
    (l.map (fun a => f a / c)).sum = (l.map f).sum / c := by
  induction l with
  | nil => simp
  | cons x xs ih => simp [ih, add_div]

/-- The first component of `normalizeWeights` is the weight sum. -/
theorem normalizeWeights_fst {α : Type} (weight : α → ℚ) (items : List α) :
    (normalizeWeights weight items).1 = (items.map weight).sum := by
  simp [normalizeWeights, foldl_add_eq_sum]

/-- Scaling each normalized fraction of a sibling group by `d` and
summing recovers `d`, whenever the group's weight sum is non-zero. -/
theorem sum_scaled_norms {α : Type} (weight : α → ℚ) (items : List α) (d : ℚ)
    (h : (items.map weight).sum ≠ 0) :
    (((normalizeWeights weight items).2).map (fun p => d * p.2)).sum = d := by
  simp only [normalizeWeights, foldl_add_eq_sum, zero_add, List.map_map]
  have hcongr :
      ((fun p : α × ℚ => d * p.2) ∘
        fun it => (it, if (items.map weight).sum ≠ 0
          then weight it / (items.map weight).sum else 0))
        = fun it => d / (items.map weight).sum * weight it := by
    funext it
    simp only [Function.comp, if_pos h]
    ring
  rw [hcongr, List.sum_map_mul_left]
  exact div_mul_cancel₀ d h

/-- C4: for every sibling group, if the weight sum is strictly positive
and every weight is non-negative then the normalized fractions sum to
exactly 1 and each lies in [0, 1]; if the weight sum is 0 then every
fraction is exactly 0 (the code never divides by zero). -/
theorem normalize_fractions {α : Type} (weight : α → ℚ) (items : List α) :
    (0 < (normalizeWeights weight items).1 → (∀ a ∈ items, 0 ≤ weight a) →
      ((((normalizeWeights weight items).2).map (fun p => p.2)).sum = 1 ∧
        ∀ p ∈ (normalizeWeights weight items).2, 0 ≤ p.2 ∧ p.2 ≤ 1)) ∧
    ((normalizeWeights weight items).1 = 0 →
      ∀ p ∈ (normalizeWeights weight items).2, p.2 = 0) := by
  rw [normalizeWeights_fst]
  constructor
  · intro hpos hw
    have hne : (items.map weight).sum ≠ 0 := ne_of_gt hpos
    constructor
    · simp only [normalizeWeights, foldl_add_eq_sum, zero_add, List.map_map]
      have hcongr :
          ((fun p : α × ℚ => p.2) ∘
            fun it => (it, if (items.map weight).sum ≠ 0
              then weight it / (items.map weight).sum else 0))
            = fun it => weight it / (items.map weight).sum := by
        funext it
        simp [Function.comp, if_pos hne]
      rw [hcongr, sum_map_div, div_self hne]
    · intro p hp
      simp only [normalizeWeights, foldl_add_eq_sum, zero_add,
        List.mem_map] at hp
      obtain ⟨a, ha, rfl⟩ := hp
      simp only [if_pos hne]
      have hle : weight a ≤ (items.map weight).sum := by
        refine List.single_le_sum ?_ _ (List.mem_map_of_mem weight ha)
        intro x hx
        obtain ⟨b, hb, rfl⟩ := List.mem_map.mp hx
        exact hw b hb
      exact ⟨div_nonneg (hw a ha) hpos.le, (div_le_one hpos).mpr hle⟩
  · intro hzero p hp
    simp only [normalizeWeights, foldl_add_eq_sum, zero_add,
      List.mem_map] at hp
    obtain ⟨a, ha, rfl⟩ := hp
    simp [hzero]

/-- Witness for C4 on the concrete sibling group of weights [1, 3]. -/
theorem normalize_fractions_witness :
    (0 : ℚ) < (normalizeWeights id [(1 : ℚ), 3]).1 ∧
    ((((normalizeWeights id [(1 : ℚ), 3]).2).map (fun p => p.2)).sum = 1 ∧
      ∀ p ∈ (normalizeWeights id [(1 : ℚ), 3]).2, 0 ≤ p.2 ∧ p.2 ≤ 1) :=
  ⟨by norm_num [normalizeWeights],
   (normalize_fractions id [(1 : ℚ), 3]).1 (by norm_num [normalizeWeights])
     (by norm_num)⟩

/-- C2: for every tax amount, the dollars allocated to the top-level
categories sum exactly to the tax amount, and for every entry of the
top-level allocation, its subcategory group exists and its subcategory
dollars sum exactly to that entry's dollars (exact rational arithmetic,
so the floating-point tolerance is met with slack). -/
theorem allocation_sums (t : ℚ) :
    ((categoryAlloc t).map CatAlloc.dollars).sum = t ∧
    ∀ c ∈ CATEGORIES, ∀ norm d : ℚ,
      ∃ subs, selectedSubcatsOf { cat := c, norm := norm, dollars := d } = some subs ∧
        (subs.map SubAlloc.dollars).sum = d := by
  have hcat : (CATEGORIES.map Category.weight).sum ≠ 0 := by
    norm_num [CATEGORIES, education, humanServices, miscellaneous, publicSafety,
      pensions, generalGovernment, debtService, health, environmental, housing,
      cuny, transportationServices, parksCultural, libraries]
  constructor
  · have hmap : (categoryAlloc t).map CatAlloc.dollars
        = ((normalizeWeights Category.weight CATEGORIES).2).map
            (fun p => t * p.2) := by
      simp [categoryAlloc, List.map_map, Function.comp]
    rw [hmap]
    exact sum_scaled_norms Category.weight CATEGORIES t hcat
  · intro c hc norm d
    have hchild : c.children.isEmpty = false ∧
        (c.children.map Subcategory.weight).sum ≠ 0 := by
      fin_cases hc <;>
        norm_num [education, humanServices, miscellaneous, publicSafety,
          pensions, generalGovernment, debtService, health, environmental,
          housing, cuny, transportationServices, parksCultural, libraries]
    obtain ⟨hne, hsum⟩ := hchild
    have hopt : selectedSubcatsOf { cat := c, norm := norm, dollars := d }
        = some (((normalizeWeights Subcategory.weight c.children).2).map
            (fun p => ({ sub := p.1, norm := p.2, dollars := d * p.2 } : SubAlloc))) := by
      simp [selectedSubcatsOf, hne]
    refine ⟨_, hopt, ?_⟩
    have hmap : ((((normalizeWeights Subcategory.weight c.children).2).map
        (fun p => ({ sub := p.1, norm := p.2, dollars := d * p.2 } : SubAlloc))).map
          SubAlloc.dollars)
        = ((normalizeWeights Subcategory.weight c.children).2).map
            (fun p => d * p.2) := by
      simp [List.map_map, Function.comp]
    rw [hmap]
    exact sum_scaled_norms Subcategory.weight c.children d hsum

/-- Witness for C2 at tax amount 100 and the Education category with
parent dollars 29.71. -/
theorem allocation_sums_witness :
    ((categoryAlloc 100).map CatAlloc.dollars).sum = 100 ∧
    education ∈ CATEGORIES ∧
    ∃ subs,
      selectedSubcatsOf { cat := education, norm := 0.2971, dollars := 29.71 }
        = some subs ∧
      (subs.map SubAlloc.dollars).sum = 29.71 :=
  ⟨(allocation_sums 100).1, by simp [CATEGORIES],
   (allocation_sums 100).2 education (by simp [CATEGORIES]) 0.2971 29.71⟩

/-- The slice walk preserves the labels in input order. -/
theorem computeDonutSlicesAux_map_label (total cx cy ringMid startAngle : ℚ) :
    ∀ (acc : ℚ) (items : List RingItem),
      (computeDonutSlicesAux total cx cy ringMid startAngle acc items).map
        (fun s => s.label) = items.map (fun it => it.label)
  | _, [] => by simp [computeDonutSlicesAux]
  | acc, it :: rest => by
    simp [computeDonutSlicesAux,
      computeDonutSlicesAux_map_label total cx cy ringMid startAngle _ rest]

/-- Each slice's sweep is `max 0 value / total * 360`. -/
theorem computeDonutSlicesAux_map_sweep (total cx cy ringMid startAngle : ℚ) :
    ∀ (acc : ℚ) (items : List RingItem),
      (computeDonutSlicesAux total cx cy ringMid startAngle acc items).map
        (fun s => s.sweep) = items.map (fun it => max 0 it.value / total * 360)
  | _, [] => by simp [computeDonutSlicesAux]
  | acc, it :: rest => by
    simp [computeDonutSlicesAux,
      computeDonutSlicesAux_map_sweep total cx cy ringMid startAngle _ rest]

/-- The walk produces one slice per item. -/
theorem computeDonutSlicesAux_length (total cx cy ringMid startAngle : ℚ) :
    ∀ (acc : ℚ) (items : List RingItem),
      (computeDonutSlicesAux total cx cy ringMid startAngle acc items).length
        = items.length
  | _, [] => by simp [computeDonutSlicesAux]
  | acc, it :: rest => by
    simp [computeDonutSlicesAux,
      computeDonutSlicesAux_length total cx cy ringMid startAngle _ rest]

/-- The first slice of a non-empty walk starts at `startAngle + acc`. -/
theorem computeDonutSlicesAux_head_start (total cx cy ringMid startAngle : ℚ)
    (acc : ℚ) (it : RingItem) (rest : List RingItem) :
    ((computeDonutSlicesAux total cx cy ringMid startAngle acc (it :: rest)).get
        ⟨0, by simp [computeDonutSlicesAux]⟩).start = startAngle + acc := rfl

/-- Consecutive slices are contiguous: each span starts where the
previous span ended. -/
theorem computeDonutSlicesAux_contiguous (total cx cy ringMid startAngle : ℚ) :
    ∀ (acc : ℚ) (items : List RingItem) (i : ℕ)
      (h : i + 1 < (computeDonutSlicesAux total cx cy ringMid startAngle acc items).length),
      ((computeDonutSlicesAux total cx cy ringMid startAngle acc items).get
          ⟨i + 1, h⟩).start
        = ((computeDonutSlicesAux total cx cy ringMid startAngle acc items).get
            ⟨i, Nat.lt_of_succ_lt h⟩).start
          + ((computeDonutSlicesAux total cx cy ringMid startAngle acc items).get
            ⟨i, Nat.lt_of_succ_lt h⟩).sweep := by
  intro acc items
  induction items generalizing acc with
  | nil => intro i h; simp [computeDonutSlicesAux] at h
  | cons it rest ih =>
    intro i h
    match i with
    | 0 =>
      match rest with
      | [] =>
        exfalso
        simp [computeDonutSlicesAux] at h
      | r :: rrest =>
        show ((computeDonutSlicesAux total cx cy ringMid startAngle
            (acc + max 0 it.value / total * 360) (r :: rrest)).get
              ⟨0, by simp [computeDonutSlicesAux]⟩).start = _
        rw [computeDonutSlicesAux_head_start]
        show startAngle + (acc + max 0 it.value / total * 360)
          = (startAngle + acc) + max 0 it.value / total * 360
        ring
    | Nat.succ j =>
      have h2 : j + 1 < (computeDonutSlicesAux total cx cy ringMid startAngle
          (acc + max 0 it.value / total * 360) rest).length := by
        simpa [computeDonutSlicesAux, computeDonutSlicesAux_length] using h
      exact ih (acc + max 0 it.value / total * 360) j h2

/-- Each slice records `isRight` exactly as the sign test of the cosine
of its own mid angle in radians. -/
theorem computeDonutSlicesAux_isRight (total cx cy ringMid startAngle : ℚ) :
    ∀ (acc : ℚ) (items : List RingItem),
      ∀ s ∈ computeDonutSlicesAux total cx cy ringMid startAngle acc items,
        s.isRight = decide (0 ≤ Real.cos (Real.pi / 180 * (s.midAngle : ℝ)))
  | _, [], s, hs => by simp [computeDonutSlicesAux] at hs
  | acc, it :: rest, s, hs => by
    rw [computeDonutSlicesAux, List.mem_cons] at hs
    rcases hs with rfl | hs
    · rfl
    · exact computeDonutSlicesAux_isRight total cx cy ringMid startAngle _ rest s hs

/-- C3 counterexample: the claim as stated fails for positive totals
below 1.  A single slice of value 1/2 (so S = 1/2 > 0) gets sweep
`(1/2) / max(1, 1/2) * 360 = 180`, not `360 * (1/2) / (1/2) = 360`,
because the code floors the divisor at 1. -/
theorem donut_sweep_small_total_counterexample :
    ((computeDonutSlices [{ label := "a", value := 1/2, color := none }]
        360 26 (-90)).map (fun s => s.sweep)) = [180] ∧
    ((180 : ℚ) ≠ 360 * (1/2) /
      (([{ label := "a", value := 1/2, color := none }] : List RingItem).map
        RingItem.value).sum) := by
  constructor
  · norm_num [computeDonutSlices, computeDonutSlicesAux, max_def]
  · norm_num

/-- C3 (amended): for a list of slices with non-negative values summing
to S ≥ 1 (the code floors the divisor at 1, so totals below 1 do not
follow the stated formula), `computeDonutSlices` emits one slice per
item in input order, slice sweeps are `360·v/S`, the sweeps sum to
exactly 360, the first span starts at the start angle (−90 at the call
sites), and each following span starts where the previous one ended. -/
theorem donut_slices_spec (items : List RingItem) (size thickness startAngle : ℚ)
    (hnn : ∀ it ∈ items, 0 ≤ it.value)
    (hS : 1 ≤ (items.map RingItem.value).sum) :
    (computeDonutSlices items size thickness startAngle).map (fun s => s.label)
      = items.map (fun it => it.label) ∧
    (computeDonutSlices items size thickness startAngle).map (fun s => s.sweep)
      = items.map (fun it => 360 * it.value / (items.map RingItem.value).sum) ∧
    ((computeDonutSlices items size thickness startAngle).map
        (fun s => s.sweep)).sum = 360 ∧
    (∀ h0 : 0 < (computeDonutSlices items size thickness startAngle).length,
      ((computeDonutSlices items size thickness startAngle).get ⟨0, h0⟩).start
        = startAngle) ∧
    (∀ (i : ℕ)
      (h : i + 1 < (computeDonutSlices items size thickness startAngle).length),
      ((computeDonutSlices items size thickness startAngle).get ⟨i + 1, h⟩).start
        = ((computeDonutSlices items size thickness startAngle).get
            ⟨i, Nat.lt_of_succ_lt h⟩).start
          + ((computeDonutSlices items size thickness startAngle).get
            ⟨i, Nat.lt_of_succ_lt h⟩).sweep) := by
  have hfold : items.foldl (fun a b => a + max 0 b.value) 0
      = (items.map RingItem.value).sum := by
    rw [foldl_add_eq_sum, zero_add]
    exact congrArg List.sum
      (List.map_congr_left fun it hit => max_eq_right (hnn it hit))
  have hSne : (items.map RingItem.value).sum ≠ 0 := by linarith
  have htot : max 1 (items.foldl (fun a b => a + max 0 b.value) 0)
      = (items.map RingItem.value).sum := by
    rw [hfold]
    exact max_eq_right hS
  have hsweep : (computeDonutSlices items size thickness startAngle).map
      (fun s => s.sweep)
      = items.map (fun it => 360 * it.value / (items.map RingItem.value).sum) := by
    simp only [computeDonutSlices, htot]
    rw [computeDonutSlicesAux_map_sweep]
    refine List.map_congr_left fun it hit => ?_
    rw [max_eq_right (hnn it hit)]
    ring
  refine ⟨?_, hsweep, ?_, ?_, ?_⟩
  · simp only [computeDonutSlices]
    exact computeDonutSlicesAux_map_label _ _ _ _ _ _ items
  · rw [hsweep]
    have hcongr : items.map
        (fun it => 360 * it.value / (items.map RingItem.value).sum)
        = items.map
            (fun it => 360 / (items.map RingItem.value).sum * it.value) := by
      refine List.map_congr_left fun it _ => ?_
      ring
    rw [hcongr, List.sum_map_mul_left]
    exact div_mul_cancel₀ 360 hSne
  · intro h0
    match items, h0 with
    | it :: rest, _ =>
      exact (computeDonutSlicesAux_head_start _ _ _ _ _ 0 it rest).trans
        (add_zero startAngle)
  · intro i h
    exact computeDonutSlicesAux_contiguous _ _ _ _ _ 0 items i h

/-- Witness for the amended C3 theorem on two slices of values 100 and
300 (S = 400 ≥ 1). -/
theorem donut_slices_spec_witness :
    (∀ it ∈ ([{ label := "a", value := 100, color := none },
        { label := "b", value := 300, color := none }] : List RingItem),
      0 ≤ it.value) ∧
    (1 : ℚ) ≤ (([{ label := "a", value := 100, color := none },
        { label := "b", value := 300, color := none }] : List RingItem).map
        RingItem.value).sum ∧
    ((computeDonutSlices [{ label := "a", value := 100, color := none },
        { label := "b", value := 300, color := none }] 360 26 (-90)).map
        (fun s => s.sweep)).sum = 360 :=
  ⟨by norm_num, by norm_num,
   (donut_slices_spec
      [{ label := "a", value := 100, color := none },
       { label := "b", value := 300, color := none }] 360 26 (-90)
      (by norm_num) (by norm_num)).2.2.1⟩

/-- C8: phase 1 of the label-rail layout puts a slice in the right
column exactly when the cosine of its mid angle (in radians) is ≥ 0
(the boundary cos = 0 goes right), puts it in the left column otherwise,
and each column is sorted ascending by `midY`. -/
theorem rail_partition_and_sort (items : List RingItem) (size thickness : ℚ) :
    (∀ s, s ∈ rightItems items size thickness ↔
      s ∈ computeDonutSlices items size thickness (-90) ∧
        0 ≤ Real.cos (Real.pi / 180 * (s.midAngle : ℝ))) ∧
    (∀ s, s ∈ leftItems items size thickness ↔
      s ∈ computeDonutSlices items size thickness (-90) ∧
        ¬ 0 ≤ Real.cos (Real.pi / 180 * (s.midAngle : ℝ))) ∧
    List.Pairwise (fun a b => a.midY ≤ b.midY) (leftItems items size thickness) ∧
    List.Pairwise (fun a b => a.midY ≤ b.midY) (rightItems items size thickness) := by
  have hchar : ∀ s ∈ computeDonutSlices items size thickness (-90),
      s.isRight = decide (0 ≤ Real.cos (Real.pi / 180 * (s.midAngle : ℝ))) :=
    computeDonutSlicesAux_isRight _ _ _ _ _ 0 items
  have hsort : ∀ l : List DonutSlice,
      List.Pairwise (fun a b => a.midY ≤ b.midY)
        (l.mergeSort (fun a b => decide (a.midY ≤ b.midY))) := by
    intro l
    have htrans : ∀ a b c : DonutSlice,
        decide (a.midY ≤ b.midY) = true → decide (b.midY ≤ c.midY) = true →
          decide (a.midY ≤ c.midY) = true := by
      intro a b c h1 h2
      simp only [decide_eq_true_eq] at h1 h2 ⊢
      exact le_trans h1 h2
    have htotal : ∀ a b : DonutSlice,
        (decide (a.midY ≤ b.midY) || decide (b.midY ≤ a.midY)) = true := by
      intro a b
      simp only [Bool.or_eq_true, decide_eq_true_eq]
      exact le_total a.midY b.midY
    exact (List.sorted_mergeSort htrans htotal l).imp
      fun hab => of_decide_eq_true hab
  refine ⟨fun s => ?_, fun s => ?_, hsort _, hsort _⟩
  · rw [rightItems, List.mem_mergeSort, List.mem_filter]
    constructor
    · rintro ⟨hmem, hb⟩
      refine ⟨hmem, ?_⟩
      rw [hchar s hmem] at hb
      exact of_decide_eq_true hb
    · rintro ⟨hmem, hc⟩
      refine ⟨hmem, ?_⟩
      rw [hchar s hmem]
      exact decide_eq_true hc
  · rw [leftItems, List.mem_mergeSort, List.mem_filter]
    constructor
    · rintro ⟨hmem, hb⟩
      refine ⟨hmem, ?_⟩
      rw [Bool.not_eq_true', hchar s hmem] at hb
      exact of_decide_eq_false hb
    · rintro ⟨hmem, hc⟩
      refine ⟨hmem, ?_⟩
      rw [Bool.not_eq_true', hchar s hmem]
      exact decide_eq_false hc

/-- Per-slice bookkeeping of `measureLines`: its output is the
`filterMap` of the connector body, so lines count and name exactly the
measured slices. -/
theorem filterMap_connector_spec (containerRect donutRect : Rect)
    (measure : String → Option Rect) :
    ∀ slices : List DonutSlice,
      (slices.filterMap (connectorOf containerRect donutRect measure)).length
        = (slices.filter (fun s => (measure s.label).isSome)).length ∧
      (slices.filterMap (connectorOf containerRect donutRect measure)).map
          (fun l => l.label)
        = (slices.filter (fun s => (measure s.label).isSome)).map
            (fun s => s.label)
  | [] => by simp
  | s :: rest => by
    obtain ⟨ih1, ih2⟩ := filterMap_connector_spec containerRect donutRect measure rest
    cases hm : measure s.label with
    | none =>
      simp [List.filterMap_cons, connectorOf, hm, ih1, ih2]
    | some r =>
      simp [List.filterMap_cons, connectorOf, hm, ih1, ih2]

/-- C9: a slice whose label is missing from the measured set contributes
no connector, while every measured slice still contributes exactly one
connector carrying its label — the rest of the layout is computed, and
no error path exists (the function is total).  With nothing measured,
the connector list is empty. -/
theorem connector_skips_unmeasured (slices : List DonutSlice)
    (measure : String → Option Rect) (containerRect donutRect : Rect) :
    measureLines slices measure containerRect donutRect
      = slices.filterMap (connectorOf containerRect donutRect measure) ∧
    (measureLines slices measure containerRect donutRect).length
      = (slices.filter (fun s => (measure s.label).isSome)).length ∧
    (measureLines slices measure containerRect donutRect).map (fun l => l.label)
      = (slices.filter (fun s => (measure s.label).isSome)).map
          (fun s => s.label) ∧
    measureLines slices (fun _ => none) containerRect donutRect = [] := by
  have heq : measureLines slices measure containerRect donutRect
      = slices.filterMap (connectorOf containerRect donutRect measure) := by
    simp [measureLines, List.reduceOption, List.filterMap_map, Function.comp]
  obtain ⟨h1, h2⟩ := filterMap_connector_spec containerRect donutRect measure slices
  refine ⟨heq, heq ▸ h1, heq ▸ h2, ?_⟩
  have hnone : measureLines slices (fun _ => none) containerRect donutRect
      = slices.filterMap (connectorOf containerRect donutRect (fun _ => none)) := by
    simp [measureLines, List.reduceOption, List.filterMap_map, Function.comp]
  rw [hnone, List.filterMap_eq_nil]
  intro s _
  simp [connectorOf]

/-- C6 counterexample: `unlockedLevel` DECREASES on a user action other
than the Income (full reset) breadcrumb.  From a state with
`unlockedLevel = 3`, clicking the Tax breadcrumb runs
`setUnlockedLevel(1)` (line 717), dropping the level from 3 to 1. -/
theorem unlock_decreases_on_tax_crumb :
    (step { income := 0, unlockedLevel := 3, selectedCategoryId := none,
            selectedSubcategoryLabel := none } .crumbTax).unlockedLevel
      < ({ income := 0, unlockedLevel := 3, selectedCategoryId := none,
            selectedSubcategoryLabel := none } : PageState).unlockedLevel ∧
    PageAction.crumbTax ≠ PageAction.crumbIncome := by
  constructor
  · simp [step]
  · simp

/-- C6 (amended): `unlockedLevel` is non-decreasing across every user
action EXCEPT the three breadcrumb navigations Income, Tax and
Allocation: the Income breadcrumb is the full reset (level 0, both
selections cleared), and the Tax / Allocation breadcrumbs, when their
level is already unlocked, also lower the level (to 1 / 2) and clear
both selections.  Levels stay within 0..3. -/
theorem unlock_monotone_except_crumbs (s : PageState) (a : PageAction)
    (hs : s.unlockedLevel ≤ 3) :
    (a ≠ .crumbIncome → a ≠ .crumbTax → a ≠ .crumbAllocation →
      s.unlockedLevel ≤ (step s a).unlockedLevel) ∧
    (step s .crumbIncome
      = { s with
          unlockedLevel := 0, selectedCategoryId := none,
          selectedSubcategoryLabel := none }) ∧
    (1 ≤ s.unlockedLevel → step s .crumbTax
      = { s with
          unlockedLevel := 1, selectedCategoryId := none,
          selectedSubcategoryLabel := none }) ∧
    (2 ≤ s.unlockedLevel → step s .crumbAllocation
      = { s with
          unlockedLevel := 2, selectedCategoryId := none,
          selectedSubcategoryLabel := none }) ∧
    (step s a).unlockedLevel ≤ 3 := by
  refine ⟨?_, rfl, ?_, ?_, ?_⟩
  · intro h1 h2 h3
    cases a with
    | editIncome v => exact le_rfl
    | clickIncomeCard => exact le_max_left _ _
    | crumbIncome => exact absurd rfl h1
    | crumbTax => exact absurd rfl h2
    | crumbAllocation => exact absurd rfl h3
    | crumbDrill =>
      simp only [step]
      split_ifs with h
      · simpa using hs
      · exact le_rfl
    | clickCategory label =>
      simp only [step]
      split
      · exact le_max_left _ _
      · exact le_rfl
    | clickSubcategory label => exact le_rfl
  · intro h
    simp only [step, if_pos h]
  · intro h
    simp only [step, if_pos h]
  · cases a with
    | editIncome v => exact hs
    | clickIncomeCard =>
      simp only [step, unlockTo]
      omega
    | crumbIncome => simp [step]
    | crumbTax =>
      simp only [step]
      split_ifs with h
      · simp
      · exact hs
    | crumbAllocation =>
      simp only [step]
      split_ifs with h
      · simp
      · exact hs
    | crumbDrill =>
      simp only [step]
      split_ifs with h
      · simp
      · exact hs
    | clickCategory label =>
      simp only [step]
      split
      · simp only [unlockTo]
        omega
      · exact hs
    | clickSubcategory label => exact hs

/-- Witness for the amended C6 theorem at a concrete state. -/
theorem unlock_monotone_except_crumbs_witness :
    (({ income := 0, unlockedLevel := 2, selectedCategoryId := none,
         selectedSubcategoryLabel := none } : PageState).unlockedLevel
      ≤ (step { income := 0, unlockedLevel := 2, selectedCategoryId := none,
                selectedSubcategoryLabel := none } .clickIncomeCard).unlockedLevel) ∧
    step { income := 0, unlockedLevel := 2, selectedCategoryId := none,
           selectedSubcategoryLabel := none } .crumbAllocation
      = { income := 0, unlockedLevel := 2, selectedCategoryId := none,
          selectedSubcategoryLabel := none } :=
  ⟨(unlock_monotone_except_crumbs _ .clickIncomeCard (by decide)).1
      (by decide) (by decide) (by decide),
   (unlock_monotone_except_crumbs
      { income := 0, unlockedLevel := 2, selectedCategoryId := none,
        selectedSubcategoryLabel := none } .crumbAllocation (by decide)).2.2.2.1
     (by decide)⟩

/-- C7: a category click either switches the selection — in which case
the subcategory label is cleared unconditionally, label collisions
notwithstanding — or (unknown label) leaves the state unchanged; and a
selected subcategory label that matches no entry of the current sibling
group resolves to no selected subcategory, never a dangling reference
(likewise when nothing is selected or there is no sibling group). -/
theorem stale_subcategory_resolves_to_none :
    (∀ (s : PageState) (label : String),
      (step s (.clickCategory label)).selectedSubcategoryLabel = none
        ∨ step s (.clickCategory label) = s) ∧
    (∀ (subs : List SubAlloc) (lbl : String),
      (∀ sc ∈ subs, sc.sub.label ≠ lbl) →
        selectedSubcategoryOf (some subs) (some lbl) = none) ∧
    (∀ lbl : String, selectedSubcategoryOf none (some lbl) = none) ∧
    (∀ subs : Option (List SubAlloc), selectedSubcategoryOf subs none = none) := by
  refine ⟨?_, ?_, fun lbl => rfl, fun subs => rfl⟩
  · intro s label
    simp only [step]
    split
    · exact Or.inl rfl
    · exact Or.inr rfl
  · intro subs lbl h
    simp only [selectedSubcategoryOf]
    split_ifs with he
    · rfl
    · refine List.find?_eq_none.mpr ?_
      intro sc hsc
      simpa using h sc hsc

/-- Witness for C7 on a concrete one-element sibling group with a
non-matching selected label. -/
theorem stale_subcategory_resolves_to_none_witness :
    selectedSubcategoryOf
        (some [{ sub := { label := "x", weight := 1 }, norm := 1, dollars := 1 }])
        (some "y") = none :=
  stale_subcategory_resolves_to_none.2.1
    [{ sub := { label := "x", weight := 1 }, norm := 1, dollars := 1 }] "y"
    (by simp)
